import Mathlib

/-!
Verification of the Volcano Prometheus metrics client
(`pkg/scheduler/metrics/source/metrics_client_prometheus.go`).

Go strings are modelled as lists of characters so that the string processing
of the source (`strings.Split`, `strings.TrimSpace`) can be settled by
structural induction.  Machine `float64` values are modelled as rationals:
every claim below concerns which token reaches the float parser and what
happens when parsing fails, never the numeric semantics of parsing itself,
so the parser is a parameter `parse : Str → Option Rat` (`some q` for a
successful parse, `none` for a syntax error, for which `strconv.ParseFloat`
returns the value 0 alongside the error that the source discards).
-/

/-- Character-list model of a Go string. -/
abbrev Str := List Char

/-- Character list of a string literal. -/
def str (s : String) : Str := s.data

/-- Whitespace predicate of Go `strings.TrimSpace` (`unicode.IsSpace`):
ASCII whitespace plus NEL and NBSP. -/
def goIsSpace (c : Char) : Bool :=
  c = ' ' || c = '\t' || c = '\n' || c = '\r' || c = '\x0b' || c = '\x0c' ||
    c = '\u0085' || c = '\u00A0'

/-- Go `strings.TrimSpace`: drop whitespace from both ends. -/
def goTrimSpace (s : Str) : Str :=
  ((s.dropWhile goIsSpace).reverse.dropWhile goIsSpace).reverse

/-- Go `strings.Split(s, sep)` for a one-character separator. -/
def goSplitChar (sep : Char) : Str → List Str
  | [] => [[]]
  | c :: cs =>
    if c = sep then [] :: goSplitChar sep cs
    else
      match goSplitChar sep cs with
      | [] => [[c]]
      | r :: rs => (c :: r) :: rs

/-- Go `strings.Split(s, "=>")`: split on every non-overlapping occurrence of
the two-character separator, scanning left to right. -/
def goSplitArrow : Str → List Str
  | [] => [[]]
  | [c] => [[c]]
  | c1 :: c2 :: cs =>
    if c1 = '=' ∧ c2 = '>' then [] :: goSplitArrow cs
    else
      match goSplitArrow (c2 :: cs) with
      | [] => [[c1]]
      | r :: rs => (c1 :: r) :: rs

/-- Result types of the Prometheus `model.Value` interface; the source only
distinguishes `pmodel.ValVector` from everything else. -/
inductive PromValueType where
  | valNone
  | valScalar
  | valVector
  | valMatrix
  | valString
deriving DecidableEq

/-- A Prometheus query result as the source observes it: its `Type()` and the
textual rendering returned by `String()` (the only two accessors used). -/
structure PromValue where
  type : PromValueType
  render : Str
deriving DecidableEq

/-- One return of `v1api.Query`, in the order of the Go return values:
result (possibly nil), warnings, error (possibly nil). -/
structure QueryReply where
  res : Option PromValue
  warnings : List Str
  err : Option Str
deriving DecidableEq

/-- Modelled from the spec: the `NodeMetrics` record is declared elsewhere in
the repository; per the spec it has two numeric fields, CPU usage and memory
usage, both floating point, default zero when unavailable.  The `float64`
fields are modelled as rationals. -/
structure NodeMetrics where
  Cpu : Rat
  Memory : Rat
deriving DecidableEq

/-- Record name of cpu average usage defined in prometheus rules. -/
def promCpuUsageAvg : Str := str ("cpu_usage_avg")

/-- Record name of mem average usage defined in prometheus rules. -/
def promMemUsageAvg : Str := str ("mem_usage_avg")

/-- The `PrometheusMetricsClient` struct: address and conf map, the map
modelled as an association list. -/
structure PrometheusMetricsClient where
  address : Str
  conf : List (Str × Str)

/-- `NewPrometheusMetricsClient`: unconditionally returns the struct and a
nil error. -/
def newPrometheusMetricsClient (address : Str) (conf : List (Str × Str)) :
    Except Str PrometheusMetricsClient :=
  .ok ⟨address, conf⟩

/-- Go map read with the zero-value default: `m[k]` is `""` when `k` is
absent. -/
def goMapGet (m : List (Str × Str)) (k : Str) : Str :=
  (m.lookup k).getD []

/-- The TLS toggle `p.conf["tls.insecureSkipVerify"] == "true"` that is put
into `tls.Config.InsecureSkipVerify`. -/
def insecureSkipVerify (conf : List (Str × Str)) : Bool :=
  goMapGet conf (str ("tls.insecureSkipVerify")) == str ("true")

/-- The query string
`fmt.Sprintf("%s_%s{instance=\"%s\"}", metric, period, nodeName)`. -/
def buildQuery (metric period nodeName : Str) : Str :=
  metric ++ str ("_") ++ period ++ str ("\x7binstance=\"") ++ nodeName ++
    str ("\"\x7d")

/-- Query string of the cpu metric (first loop iteration). -/
def cpuQuery (period nodeName : Str) : Str :=
  buildQuery promCpuUsageAvg period nodeName

/-- Query string of the mem metric (second loop iteration). -/
def memQuery (period nodeName : Str) : Str :=
  buildQuery promMemUsageAvg period nodeName

/-- First newline-separated line of the rendering:
`strings.Split(res.String(), "\n")[0]` (`strings.Split` never returns an
empty slice, so the index is in bounds). -/
def firstLine (render : Str) : Str :=
  (goSplitChar '\n' render).headD []

/-- The row split of the first line:
`strings.Split(strings.TrimSpace(firstRowValVector), "=>")`. -/
def rowValues (render : Str) : List Str :=
  goSplitArrow (goTrimSpace (firstLine render))

/-- The numeric token handed to `strconv.ParseFloat`:
`strings.Split(strings.TrimSpace(rowValues[1]), " ")[0]`.  The value `none`
marks the case in which `rowValues[1]` is out of bounds and the Go code
panics with an index-out-of-range runtime error. -/
def valueToken (render : Str) : Option Str :=
  match (rowValues render)[1]? with
  | none => none
  | some rv => some ((goSplitChar ' ' (goTrimSpace rv)).headD [])

/-- Effect of one iteration of the metric loop on the field of its metric:
`skip` is `continue` (field left at zero), `panic` the out-of-bounds index
access, `setVal q` the assignment of `q` to the field. -/
inductive MetricStep where
  | skip
  | panic
  | setVal (q : Rat)
deriving DecidableEq

/-- One iteration of the metric loop of `NodeMetricsAvg` over the reply of
`v1api.Query`: skip on nil result, empty rendering or non-vector type,
otherwise parse the extracted token, the parse error being discarded so that
a syntax error assigns `strconv.ParseFloat`'s zero return value.  The `err`
and `warnings` parts of the reply are only logged and do not influence the
field. -/
def processReply (parse : Str → Option Rat) (r : QueryReply) : MetricStep :=
  match r.res with
  | none => .skip
  | some v =>
    if v.render = [] then .skip
    else if v.type ≠ .valVector then .skip
    else
      match valueToken v.render with
      | none => .panic
      | some tok => .setVal ((parse tok).getD 0)

/-- Value a loop iteration leaves in its field (fields start at zero from
`&NodeMetrics{}`). -/
def stepVal : MetricStep → Rat
  | .skip => 0
  | .panic => 0
  | .setVal q => q

/-- Observable outcome of `NodeMetricsAvg`: the `(nil, err)` return when the
backend client cannot be constructed, a runtime panic, or the
`(&nodeMetrics, nil)` return. -/
inductive CallResult where
  | clientErr (e : Str)
  | panicked
  | ok (m : NodeMetrics)
deriving DecidableEq

/-- Sequencing of the two loop iterations: a panic in either iteration
aborts the call, otherwise both fields are materialised. -/
def runLoop (s1 s2 : MetricStep) : CallResult :=
  if s1 = .panic ∨ s2 = .panic then .panicked
  else .ok ⟨stepVal s1, stepVal s2⟩

/-- `NodeMetricsAvg`.  `apiNewClient` models the external
`api.NewClient(api.Config{Address, RoundTripper})` call, applied to the two
configuration inputs that the source derives: the address and the TLS
toggle; `backend` models `v1api.Query`, mapping a query string to its reply.
The two loop iterations (cpu first, then mem) are unrolled; each assigns
only its own field. -/
def nodeMetricsAvg (parse : Str → Option Rat)
    (apiNewClient : Str → Bool → Except Str Unit)
    (backend : Str → QueryReply)
    (p : PrometheusMetricsClient) (nodeName period : Str) : CallResult :=
  match apiNewClient p.address (insecureSkipVerify p.conf) with
  | .error e => .clientErr e
  | .ok _ =>
    runLoop
      (processReply parse (backend (cpuQuery period nodeName)))
      (processReply parse (backend (memQuery period nodeName)))

/-- Replies on which the loop iteration cannot hit the out-of-bounds index of rowValues: every non-nil vector result with a non-empty rendering has "=>" in its first line. The rendering of a genuine Prometheus vector always satisfies this (it is empty or each row contains " => "). -/
def ReplySafe (r : QueryReply) : Prop :=
  ∀ v, r.res = some v → v.type = .valVector → v.render ≠ [] →
    ['=', '>'] <:+: firstLine v.render

/-- Replies that the loop skips: nil result, empty rendering, or non-vector result type. -/
def SkipReply (r : QueryReply) : Prop :=
  r.res = none ∨ ∃ v, r.res = some v ∧ (v.render = [] ∨ v.type ≠ .valVector)

/-- Concrete backend used by witnesses: a valid vector rendering per metric, value 1 for the cpu query and 2 for everything else. -/
def wBackend : Str → QueryReply := fun q =>
  if q = cpuQuery (str ("5m")) (str ("worker-1")) then
    ⟨some ⟨.valVector, str ("\x7ba=b\x7d => 1 @ 17")⟩, [], none⟩
  else
    ⟨some ⟨.valVector, str ("\x7ba=b\x7d => 2 @ 17")⟩, [], none⟩

/-- Concrete float parser used by witnesses. -/
def wParse : Str → Option Rat := fun s =>
  if s = str ("1") then some 1 else if s = str ("2") then some 2 else none

/-- Go `strings.Split` with a one-character separator never returns an empty slice, so index 0 is always in bounds. -/
theorem goSplitChar_ne_nil (sep : Char) (s : Str) : goSplitChar sep s ≠ [] := by
  cases s with
  | nil => simp [goSplitChar]
  | cons c cs =>
    rw [goSplitChar]
    split
    · simp
    · split <;> simp

/-- Go `strings.Split(s, "=>")` never returns an empty slice. -/
theorem goSplitArrow_ne_nil (s : Str) : goSplitArrow s ≠ [] := by
  match s with
  | [] => simp [goSplitArrow]
  | [c] => simp [goSplitArrow]
  | c1 :: c2 :: cs =>
    rw [goSplitArrow]
    split
    · simp
    · split <;> simp

/-- Splitting on `"=>"` yields at least two parts exactly when `"=>"` occurs in the string. -/
theorem goSplitArrow_length_iff (s : Str) :
    2 ≤ (goSplitArrow s).length ↔ ['=', '>'] <:+: s := by
  induction s using goSplitArrow.induct with
  | case1 => simp [goSplitArrow]
  | case2 c =>
    simp only [goSplitArrow, List.length_singleton]
    constructor
    · omega
    · intro h
      have := h.length_le
      simp at this
  | case3 c1 c2 cs h ih =>
    obtain ⟨rfl, rfl⟩ := h
    rw [goSplitArrow, if_pos ⟨rfl, rfl⟩]
    constructor
    · intro _
      exact ⟨[], cs, rfl⟩
    · intro _
      have hne := goSplitArrow_ne_nil cs
      have : 1 ≤ (goSplitArrow cs).length := by
        cases hgs : goSplitArrow cs with
        | nil => exact absurd hgs hne
        | cons r rs => simp
      simp only [List.length_cons]
      omega
  | case4 c1 c2 cs h ih ih1 =>
    exact absurd ih (goSplitArrow_ne_nil _)
  | case5 c1 c2 cs h r rs heq ih1 =>
    rw [goSplitArrow, if_neg h, heq]
    have hlen : ((c1 :: r) :: rs).length = (goSplitArrow (c2 :: cs)).length := by
      rw [heq]; simp
    rw [hlen, ih1]
    constructor
    · exact List.infix_cons
    · intro hin
      rcases List.infix_cons_iff.mp hin with hpre | hinf
      · obtain ⟨h1, hpre2⟩ := List.cons_prefix_cons.mp hpre
        obtain ⟨h2, -⟩ := List.cons_prefix_cons.mp hpre2
        exact absurd ⟨h1.symm, h2.symm⟩ h
      · exact hinf

/-- Dropping leading whitespace neither creates nor destroys an occurrence of a pattern whose first character is not whitespace. -/
theorem infix_dropWhile_iff (x : Char) (xs l : Str) (hx : goIsSpace x = false) :
    (x :: xs) <:+: l.dropWhile goIsSpace ↔ (x :: xs) <:+: l := by
  induction l with
  | nil => simp
  | cons c l ih =>
    rw [List.dropWhile_cons]
    by_cases hc : goIsSpace c = true
    · rw [if_pos hc, ih]
      constructor
      · exact List.infix_cons
      · intro hin
        rcases List.infix_cons_iff.mp hin with hpre | hinf
        · obtain ⟨h1, -⟩ := List.cons_prefix_cons.mp hpre
          rw [h1, hc] at hx
          exact absurd hx (by simp)
        · exact hinf
    · rw [if_neg hc]

/-- Go `strings.TrimSpace` neither creates nor destroys an occurrence of `"=>"`. -/
theorem arrow_infix_trim_iff (s : Str) :
    ['=', '>'] <:+: goTrimSpace s ↔ ['=', '>'] <:+: s := by
  unfold goTrimSpace
  rw [show (['=', '>'] : Str) = (['>', '='] : Str).reverse from rfl,
    List.reverse_infix, infix_dropWhile_iff '>' ['='] _ (by decide),
    show (['>', '='] : Str) = (['=', '>'] : Str).reverse from rfl,
    List.reverse_infix]
  exact infix_dropWhile_iff '=' ['>'] s (by decide)

/-- The index `rowValues[1]` is in bounds exactly when the first newline-separated line of the rendering contains `"=>"`. -/
theorem rowValues_isSome_iff (render : Str) :
    ((rowValues render)[1]?).isSome = true ↔ ['=', '>'] <:+: firstLine render := by
  rw [← arrow_infix_trim_iff, ← goSplitArrow_length_iff]
  unfold rowValues
  rw [Option.isSome_iff_ne_none, ne_eq, List.getElem?_eq_none_iff]
  omega

/-- A nil result, an empty rendering or a non-vector type makes the loop iteration `continue`, leaving the field at zero. -/
theorem processReply_skip (parse : Str → Option Rat) (r : QueryReply)
    (h : SkipReply r) : processReply parse r = .skip := by
  rcases h with h | ⟨v, hv, h⟩
  · simp [processReply, h]
  · rcases h with h | h <;> simp [processReply, hv, h]

/-- A non-nil vector result with non-empty rendering and extractable token assigns the parsed token, with the parse error discarded. -/
theorem processReply_setVal (parse : Str → Option Rat) (r : QueryReply)
    (v : PromValue) (tok : Str) (hres : r.res = some v)
    (ht : v.type = .valVector) (hne : v.render ≠ [])
    (htok : valueToken v.render = some tok) :
    processReply parse r = .setVal ((parse tok).getD 0) := by
  simp [processReply, hres, ht, hne, htok]

/-- On a non-nil vector result with a non-empty rendering the iteration panics exactly when the first line of the rendering has no `"=>"`. -/
theorem processReply_panic_iff (parse : Str → Option Rat) (r : QueryReply)
    (v : PromValue) (hres : r.res = some v)
    (ht : v.type = .valVector) (hne : v.render ≠ []) :
    processReply parse r = .panic ↔ ¬ ['=', '>'] <:+: firstLine v.render := by
  rw [← rowValues_isSome_iff]
  simp only [processReply, hres, ht, hne, if_neg, valueToken]
  cases h : (rowValues v.render)[1]? with
  | none => simp [h]
  | some rv => simp [h]

/-- When the token extraction hits the out-of-bounds index, the iteration panics. -/
theorem processReply_panic_of_token_none (parse : Str → Option Rat)
    (r : QueryReply) (v : PromValue) (hres : r.res = some v)
    (ht : v.type = .valVector) (hne : v.render ≠ [])
    (htok : valueToken v.render = none) :
    processReply parse r = .panic := by
  simp [processReply, hres, ht, hne, htok]

/-- Inversion: an assigned field value always comes from the extracted token of a non-nil result, via the parser with discarded error. -/
theorem processReply_setVal_inv (parse : Str → Option Rat) (r : QueryReply)
    (q : Rat) (h : processReply parse r = .setVal q) :
    ∃ v tok, r.res = some v ∧ valueToken v.render = some tok ∧
      q = (parse tok).getD 0 := by
  cases hres : r.res with
  | none =>
    rw [processReply_skip parse r (Or.inl hres)] at h
    exact absurd h (by simp)
  | some v =>
    by_cases hren : v.render = []
    · rw [processReply_skip parse r (Or.inr ⟨v, hres, Or.inl hren⟩)] at h
      exact absurd h (by simp)
    · by_cases ht : v.type = .valVector
      · cases htok : valueToken v.render with
        | none =>
          rw [processReply_panic_of_token_none parse r v hres ht hren htok] at h
          exact absurd h (by simp)
        | some tok =>
          rw [processReply_setVal parse r v tok hres ht hren htok] at h
          cases h
          exact ⟨v, tok, rfl, htok, rfl⟩
      · rw [processReply_skip parse r (Or.inr ⟨v, hres, Or.inr ht⟩)] at h
        exact absurd h (by simp)

/-- A reply whose vector renderings are well formed cannot make the iteration panic. -/
theorem processReply_ne_panic (parse : Str → Option Rat) (r : QueryReply)
    (h : ReplySafe r) : processReply parse r ≠ .panic := by
  cases hres : r.res with
  | none => rw [processReply_skip parse r (Or.inl hres)]; simp
  | some v =>
    by_cases hren : v.render = []
    · rw [processReply_skip parse r (Or.inr ⟨v, hres, Or.inl hren⟩)]; simp
    · by_cases ht : v.type = .valVector
      · rw [ne_eq, processReply_panic_iff parse r v hres ht hren]
        simp only [not_not]
        exact h v hres ht hren
      · rw [processReply_skip parse r (Or.inr ⟨v, hres, Or.inr ht⟩)]; simp

/-- After successful backend-client construction the call is the two-iteration loop. -/
theorem nodeMetricsAvg_run (parse : Str → Option Rat)
    (apiNC : Str → Bool → Except Str Unit) (backend : Str → QueryReply)
    (p : PrometheusMetricsClient) (n per : Str)
    (hok : apiNC p.address (insecureSkipVerify p.conf) = .ok ()) :
    nodeMetricsAvg parse apiNC backend p n per =
      runLoop (processReply parse (backend (cpuQuery per n)))
        (processReply parse (backend (memQuery per n))) := by
  simp [nodeMetricsAvg, hok]

/-- Failed backend-client construction short-circuits to the `(nil, err)` return. -/
theorem nodeMetricsAvg_clientErr (parse : Str → Option Rat)
    (apiNC : Str → Bool → Except Str Unit) (backend : Str → QueryReply)
    (p : PrometheusMetricsClient) (n per e : Str)
    (herr : apiNC p.address (insecureSkipVerify p.conf) = .error e) :
    nodeMetricsAvg parse apiNC backend p n per = .clientErr e := by
  simp [nodeMetricsAvg, herr]

/-- When neither iteration panics, the call returns the record of the two iteration values and a nil error. -/
theorem nodeMetricsAvg_ok (parse : Str → Option Rat)
    (apiNC : Str → Bool → Except Str Unit) (backend : Str → QueryReply)
    (p : PrometheusMetricsClient) (n per : Str)
    (hok : apiNC p.address (insecureSkipVerify p.conf) = .ok ())
    (h1 : processReply parse (backend (cpuQuery per n)) ≠ .panic)
    (h2 : processReply parse (backend (memQuery per n)) ≠ .panic) :
    nodeMetricsAvg parse apiNC backend p n per =
      .ok ⟨stepVal (processReply parse (backend (cpuQuery per n))),
           stepVal (processReply parse (backend (memQuery per n)))⟩ := by
  rw [nodeMetricsAvg_run parse apiNC backend p n per hok, runLoop,
    if_neg (by tauto)]

/-- Inversion: a returned record's fields are exactly the two iteration values. -/
theorem nodeMetricsAvg_ok_inv (parse : Str → Option Rat)
    (apiNC : Str → Bool → Except Str Unit) (backend : Str → QueryReply)
    (p : PrometheusMetricsClient) (n per : Str) (m : NodeMetrics)
    (h : nodeMetricsAvg parse apiNC backend p n per = .ok m) :
    m.Cpu = stepVal (processReply parse (backend (cpuQuery per n))) ∧
    m.Memory = stepVal (processReply parse (backend (memQuery per n))) := by
  cases hc : apiNC p.address (insecureSkipVerify p.conf) with
  | error e =>
    rw [nodeMetricsAvg_clientErr parse apiNC backend p n per e hc] at h
    exact absurd h (by simp)
  | ok u =>
    cases u
    rw [nodeMetricsAvg_run parse apiNC backend p n per hc, runLoop] at h
    by_cases hp : processReply parse (backend (cpuQuery per n)) = .panic ∨
        processReply parse (backend (memQuery per n)) = .panic
    · rw [if_pos hp] at h
      exact absurd h (by simp)
    · rw [if_neg hp] at h
      cases h
      exact ⟨rfl, rfl⟩

/-- C1: for every nodeName and period the query string is exactly the metric name, an underscore, the period, then the instance label filter; in particular for node worker-1, period 5m and metric cpu_usage_avg it renders exactly the expected string. -/
theorem c1_query_string_format :
    (∀ metric period nodeName : Str,
      buildQuery metric period nodeName =
        metric ++ str ("_") ++ period ++ str ("\x7binstance=\"") ++
          nodeName ++ str ("\"\x7d"))
    ∧ buildQuery promCpuUsageAvg (str ("5m")) (str ("worker-1")) =
        str ("cpu_usage_avg_5m\x7binstance=\"worker-1\"\x7d") :=
  ⟨fun _ _ _ => rfl, by decide⟩

/-- C2 counterexample: with the backend client constructed successfully, a backend reply whose vector result renders as the non-empty string "abc" (no "=>" in its first line) makes `NodeMetricsAvg` panic on an out-of-bounds index instead of returning a NodeMetrics record and a nil error, refuting the claim that every backend behaviour after successful construction yields a record and a nil error. -/
theorem c2_counterexample :
    nodeMetricsAvg (fun _ => none) (fun _ _ => .ok ())
      (fun _ => ⟨some ⟨.valVector, str ("abc")⟩, [], none⟩)
      ⟨[], []⟩ (str ("worker-1")) (str ("5m")) = .panicked := by
  decide

/-- C2 (amended): `NodeMetricsAvg` returns a non-nil error iff the backend client cannot be constructed from the configured address; for every backend behaviour after successful construction whose non-nil vector results render empty or with "=>" in the first line (covering query errors, empty results, wrong types and unparseable values) it returns a NodeMetrics record and a nil error. -/
theorem c2_error_iff_construction (parse : Str → Option Rat)
    (apiNC : Str → Bool → Except Str Unit) (backend : Str → QueryReply)
    (p : PrometheusMetricsClient) (n per : Str) :
    ((∃ e, nodeMetricsAvg parse apiNC backend p n per = .clientErr e) ↔
      ∃ e, apiNC p.address (insecureSkipVerify p.conf) = .error e)
    ∧ (apiNC p.address (insecureSkipVerify p.conf) = .ok () →
        ReplySafe (backend (cpuQuery per n)) →
        ReplySafe (backend (memQuery per n)) →
        ∃ m, nodeMetricsAvg parse apiNC backend p n per = .ok m) := by
  constructor
  · constructor
    · rintro ⟨e, he⟩
      cases hc : apiNC p.address (insecureSkipVerify p.conf) with
      | error e2 => exact ⟨e2, rfl⟩
      | ok u =>
        cases u
        rw [nodeMetricsAvg_run parse apiNC backend p n per hc, runLoop] at he
        by_cases hp : processReply parse (backend (cpuQuery per n)) = .panic ∨
            processReply parse (backend (memQuery per n)) = .panic
        · rw [if_pos hp] at he
          exact absurd he (by simp)
        · rw [if_neg hp] at he
          exact absurd he (by simp)
    · rintro ⟨e, he⟩
      exact ⟨e, nodeMetricsAvg_clientErr parse apiNC backend p n per e he⟩
  · intro hok hs1 hs2
    exact ⟨_, nodeMetricsAvg_ok parse apiNC backend p n per hok
      (processReply_ne_panic parse _ hs1) (processReply_ne_panic parse _ hs2)⟩

/-- C2 witness: a backend whose queries fail with nil results still yields a NodeMetrics record and a nil error. -/
theorem c2_witness :
    ∃ m, nodeMetricsAvg (fun _ => none) (fun _ _ => .ok ())
      (fun _ => ⟨none, [], some (str ("down"))⟩) ⟨[], []⟩
      (str ("worker-1")) (str ("5m")) = .ok m := by
  apply (c2_error_iff_construction (fun _ => none) (fun _ _ => .ok ())
    (fun _ => ⟨none, [], some (str ("down"))⟩) ⟨[], []⟩
    (str ("worker-1")) (str ("5m"))).2 rfl
  · intro v hv
    exact absurd hv (by simp)
  · intro v hv
    exact absurd hv (by simp)

/-- C3: for a backend returning valid vector samples for both metrics, the returned record's Cpu field is exactly the parsed float of the first sample row's value token of the cpu query, and Memory exactly that of the mem query. -/
theorem c3_valid_vectors_exact (parse : Str → Option Rat)
    (apiNC : Str → Bool → Except Str Unit) (backend : Str → QueryReply)
    (p : PrometheusMetricsClient) (n per : Str)
    (vc vm : PromValue) (tokc tokm : Str) (qc qm : Rat)
    (hok : apiNC p.address (insecureSkipVerify p.conf) = .ok ())
    (hc1 : (backend (cpuQuery per n)).res = some vc)
    (hc2 : vc.type = .valVector) (hc3 : vc.render ≠ [])
    (hc4 : valueToken vc.render = some tokc) (hc5 : parse tokc = some qc)
    (hm1 : (backend (memQuery per n)).res = some vm)
    (hm2 : vm.type = .valVector) (hm3 : vm.render ≠ [])
    (hm4 : valueToken vm.render = some tokm) (hm5 : parse tokm = some qm) :
    nodeMetricsAvg parse apiNC backend p n per = .ok ⟨qc, qm⟩ := by
  have h1 := processReply_setVal parse _ vc tokc hc1 hc2 hc3 hc4
  have h2 := processReply_setVal parse _ vm tokm hm1 hm2 hm3 hm4
  rw [nodeMetricsAvg_run parse apiNC backend p n per hok, runLoop,
    if_neg (by simp [h1, h2]), h1, h2]
  simp [stepVal, hc5, hm5]

/-- C3 witness: concrete vector renderings for both metrics produce exactly the parsed values 1 and 2. -/
theorem c3_witness :
    nodeMetricsAvg wParse (fun _ _ => .ok ()) wBackend ⟨[], []⟩
      (str ("worker-1")) (str ("5m")) = .ok ⟨1, 2⟩ := by
  exact c3_valid_vectors_exact wParse (fun _ _ => .ok ()) wBackend ⟨[], []⟩
    (str ("worker-1")) (str ("5m"))
    ⟨.valVector, str ("\x7ba=b\x7d => 1 @ 17")⟩
    ⟨.valVector, str ("\x7ba=b\x7d => 2 @ 17")⟩
    (str ("1")) (str ("2")) 1 2
    rfl (by decide) rfl (by decide) (by decide) (by decide)
    (by decide) rfl (by decide) (by decide) (by decide)

/-- C4: when the backend query for one metric fails (non-nil error, nil result), the call does not abort: the failed metric's field is left at zero and the other metric's field is still populated from its own query result. -/
theorem c4_failed_query_degrades (parse : Str → Option Rat)
    (apiNC : Str → Bool → Except Str Unit) (backend : Str → QueryReply)
    (p : PrometheusMetricsClient) (n per : Str)
    (hok : apiNC p.address (insecureSkipVerify p.conf) = .ok ()) :
    ((backend (cpuQuery per n)).err.isSome = true →
      (backend (cpuQuery per n)).res = none →
      ∀ vm tokm qm, (backend (memQuery per n)).res = some vm →
        vm.type = .valVector → vm.render ≠ [] →
        valueToken vm.render = some tokm → parse tokm = some qm →
        nodeMetricsAvg parse apiNC backend p n per = .ok ⟨0, qm⟩)
    ∧ ((backend (memQuery per n)).err.isSome = true →
      (backend (memQuery per n)).res = none →
      ∀ vc tokc qc, (backend (cpuQuery per n)).res = some vc →
        vc.type = .valVector → vc.render ≠ [] →
        valueToken vc.render = some tokc → parse tokc = some qc →
        nodeMetricsAvg parse apiNC backend p n per = .ok ⟨qc, 0⟩) := by
  constructor
  · intro _ hres vm tokm qm hm1 hm2 hm3 hm4 hm5
    have h1 := processReply_skip parse (backend (cpuQuery per n)) (Or.inl hres)
    have h2 := processReply_setVal parse _ vm tokm hm1 hm2 hm3 hm4
    rw [nodeMetricsAvg_run parse apiNC backend p n per hok, runLoop,
      if_neg (by simp [h1, h2]), h1, h2]
    simp [stepVal, hm5]
  · intro _ hres vc tokc qc hc1 hc2 hc3 hc4 hc5
    have h1 := processReply_setVal parse _ vc tokc hc1 hc2 hc3 hc4
    have h2 := processReply_skip parse (backend (memQuery per n)) (Or.inl hres)
    rw [nodeMetricsAvg_run parse apiNC backend p n per hok, runLoop,
      if_neg (by simp [h1, h2]), h1, h2]
    simp [stepVal, hc5]

/-- C4 witness: a failed cpu query and a valid mem query produce Cpu = 0 and Memory = 2. -/
theorem c4_witness :
    nodeMetricsAvg wParse (fun _ _ => .ok ())
      (fun q => if q = cpuQuery (str ("5m")) (str ("worker-1")) then
          ⟨none, [], some (str ("connection refused"))⟩
        else ⟨some ⟨.valVector, str ("\x7ba=b\x7d => 2 @ 17")⟩, [], none⟩)
      ⟨[], []⟩ (str ("worker-1")) (str ("5m")) = .ok ⟨0, 2⟩ := by
  exact (c4_failed_query_degrades wParse (fun _ _ => .ok ()) _ ⟨[], []⟩
      (str ("worker-1")) (str ("5m")) rfl).1 (by decide) (by decide)
    ⟨.valVector, str ("\x7ba=b\x7d => 2 @ 17")⟩ (str ("2")) 2
    (by decide) rfl (by decide) (by decide) (by decide)

/-- C5: a nil result, a result rendering to the empty string, or a result whose type is not a vector of instantaneous samples leaves the corresponding field (Cpu or Memory) at its zero value. -/
theorem c5_skip_cases_zero (parse : Str → Option Rat)
    (apiNC : Str → Bool → Except Str Unit) (backend : Str → QueryReply)
    (p : PrometheusMetricsClient) (n per : Str) :
    (∀ r, SkipReply r → processReply parse r = .skip)
    ∧ (SkipReply (backend (cpuQuery per n)) →
        ∀ m, nodeMetricsAvg parse apiNC backend p n per = .ok m → m.Cpu = 0)
    ∧ (SkipReply (backend (memQuery per n)) →
        ∀ m, nodeMetricsAvg parse apiNC backend p n per = .ok m →
          m.Memory = 0) := by
  refine ⟨processReply_skip parse, ?_, ?_⟩
  · intro hs m hm
    rw [(nodeMetricsAvg_ok_inv parse apiNC backend p n per m hm).1,
      processReply_skip parse _ hs]
    rfl
  · intro hs m hm
    rw [(nodeMetricsAvg_ok_inv parse apiNC backend p n per m hm).2,
      processReply_skip parse _ hs]
    rfl

/-- C5 witness: a scalar-typed cpu result and an empty-rendering mem vector leave both fields at zero. -/
theorem c5_witness :
    nodeMetricsAvg wParse (fun _ _ => .ok ())
      (fun q => if q = cpuQuery (str ("5m")) (str ("worker-1")) then
          ⟨some ⟨.valScalar, str ("17 @ 9")⟩, [], none⟩
        else ⟨some ⟨.valVector, []⟩, [], none⟩)
      ⟨[], []⟩ (str ("worker-1")) (str ("5m")) = .ok ⟨0, 0⟩ ∧
    (nodeMetricsAvg wParse (fun _ _ => .ok ())
      (fun q => if q = cpuQuery (str ("5m")) (str ("worker-1")) then
          ⟨some ⟨.valScalar, str ("17 @ 9")⟩, [], none⟩
        else ⟨some ⟨.valVector, []⟩, [], none⟩)
      ⟨[], []⟩ (str ("worker-1")) (str ("5m")) = .ok ⟨0, 0⟩ → (0 : Rat) = 0) := by
  constructor
  · decide
  · intro hm
    exact (c5_skip_cases_zero wParse (fun _ _ => .ok ()) _ ⟨[], []⟩
      (str ("worker-1")) (str ("5m"))).2.1
      (Or.inr ⟨⟨.valScalar, str ("17 @ 9")⟩, by decide, Or.inr (by decide)⟩)
      ⟨0, 0⟩ hm

/-- C6: a vector result whose first row's value token is malformed (fails to parse as a float) leaves the corresponding field at zero and the call still returns a nil error; the parse failure is swallowed silently. -/
theorem c6_malformed_token_zero (parse : Str → Option Rat)
    (apiNC : Str → Bool → Except Str Unit) (backend : Str → QueryReply)
    (p : PrometheusMetricsClient) (n per : Str) :
    (∀ r v tok, r.res = some v → v.type = .valVector → v.render ≠ [] →
      valueToken v.render = some tok → parse tok = none →
      processReply parse r = .setVal 0)
    ∧ (apiNC p.address (insecureSkipVerify p.conf) = .ok () →
      ReplySafe (backend (memQuery per n)) →
      ∀ vc tokc, (backend (cpuQuery per n)).res = some vc →
        vc.type = .valVector → vc.render ≠ [] →
        valueToken vc.render = some tokc → parse tokc = none →
        ∃ m, nodeMetricsAvg parse apiNC backend p n per = .ok m ∧
          m.Cpu = 0) := by
  have base : ∀ r v tok, r.res = some v → v.type = .valVector →
      v.render ≠ [] → valueToken v.render = some tok → parse tok = none →
      processReply parse r = .setVal 0 := by
    intro r v tok h1 h2 h3 h4 h5
    rw [processReply_setVal parse r v tok h1 h2 h3 h4, h5]
    rfl
  refine ⟨base, ?_⟩
  intro hok hsafe vc tokc hc1 hc2 hc3 hc4 hc5
  have h1 := base _ vc tokc hc1 hc2 hc3 hc4 hc5
  have h2 := processReply_ne_panic parse _ hsafe
  refine ⟨_, nodeMetricsAvg_ok parse apiNC backend p n per hok
    (by simp [h1]) h2, ?_⟩
  rw [h1]
  rfl

/-- C6 witness: a vector rendering whose value token "oops" fails to parse yields a record with Cpu = 0 and a nil error. -/
theorem c6_witness :
    ∃ m, nodeMetricsAvg (fun _ => none) (fun _ _ => .ok ())
      (fun _ => ⟨some ⟨.valVector, str ("\x7ba=b\x7d => oops @ 17")⟩, [], none⟩)
      ⟨[], []⟩ (str ("worker-1")) (str ("5m")) = .ok m ∧ m.Cpu = 0 := by
  refine (c6_malformed_token_zero (fun _ => none) (fun _ _ => .ok ())
    (fun _ => ⟨some ⟨.valVector, str ("\x7ba=b\x7d => oops @ 17")⟩, [], none⟩)
    ⟨[], []⟩ (str ("worker-1")) (str ("5m"))).2 rfl ?_
    ⟨.valVector, str ("\x7ba=b\x7d => oops @ 17")⟩ (str ("oops"))
    rfl rfl (by decide) (by decide) rfl
  intro v hv _ _
  cases hv
  exact ⟨str ("\x7ba=b\x7d "), str (" oops @ 17"), by decide⟩

/-- C7: when the backend metrics client cannot be constructed from the configured endpoint address, the call returns that non-nil error and no metrics record. -/
theorem c7_construction_error (parse : Str → Option Rat)
    (apiNC : Str → Bool → Except Str Unit) (backend : Str → QueryReply)
    (p : PrometheusMetricsClient) (n per e : Str)
    (h : apiNC p.address (insecureSkipVerify p.conf) = .error e) :
    nodeMetricsAvg parse apiNC backend p n per = .clientErr e ∧
    ∀ m, nodeMetricsAvg parse apiNC backend p n per ≠ .ok m := by
  have hc := nodeMetricsAvg_clientErr parse apiNC backend p n per e h
  refine ⟨hc, fun m hm => ?_⟩
  rw [hc] at hm
  exact CallResult.noConfusion hm

/-- C7 witness: a failing backend-client construction surfaces its error and no record. -/
theorem c7_witness :
    nodeMetricsAvg (fun _ => none)
      (fun _ _ => .error (str ("parse \"://bad\": missing protocol scheme")))
      (fun _ => ⟨none, [], none⟩) ⟨str ("://bad"), []⟩
      (str ("worker-1")) (str ("5m")) =
      .clientErr (str ("parse \"://bad\": missing protocol scheme")) := by
  exact (c7_construction_error (fun _ => none)
    (fun _ _ => .error (str ("parse \"://bad\": missing protocol scheme")))
    (fun _ => ⟨none, [], none⟩) ⟨str ("://bad"), []⟩
    (str ("worker-1")) (str ("5m"))
    (str ("parse \"://bad\": missing protocol scheme")) rfl).1

/-- C8: every field of a returned NodeMetrics is either a float parsed from a backend value token or the zero value, never a partially parsed or intermediate value. -/
theorem c8_fields_parsed_or_zero (parse : Str → Option Rat)
    (apiNC : Str → Bool → Except Str Unit) (backend : Str → QueryReply)
    (p : PrometheusMetricsClient) (n per : Str) (m : NodeMetrics)
    (h : nodeMetricsAvg parse apiNC backend p n per = .ok m) :
    (m.Cpu = 0 ∨ ∃ v tok q, (backend (cpuQuery per n)).res = some v ∧
      valueToken v.render = some tok ∧ parse tok = some q ∧ m.Cpu = q)
    ∧ (m.Memory = 0 ∨ ∃ v tok q, (backend (memQuery per n)).res = some v ∧
      valueToken v.render = some tok ∧ parse tok = some q ∧ m.Memory = q) := by
  obtain ⟨h1, h2⟩ := nodeMetricsAvg_ok_inv parse apiNC backend p n per m h
  constructor
  · cases hs : processReply parse (backend (cpuQuery per n)) with
    | skip => left; rw [h1, hs]; rfl
    | panic => left; rw [h1, hs]; rfl
    | setVal q =>
      obtain ⟨v, tok, hres, htok, hq⟩ := processReply_setVal_inv parse _ q hs
      cases hp : parse tok with
      | none =>
        left
        rw [h1, hs, hq, hp]
        rfl
      | some q2 =>
        right
        refine ⟨v, tok, q2, hres, htok, hp, ?_⟩
        rw [h1, hs, hq, hp]
        rfl
  · cases hs : processReply parse (backend (memQuery per n)) with
    | skip => left; rw [h2, hs]; rfl
    | panic => left; rw [h2, hs]; rfl
    | setVal q =>
      obtain ⟨v, tok, hres, htok, hq⟩ := processReply_setVal_inv parse _ q hs
      cases hp : parse tok with
      | none =>
        left
        rw [h2, hs, hq, hp]
        rfl
      | some q2 =>
        right
        refine ⟨v, tok, q2, hres, htok, hp, ?_⟩
        rw [h2, hs, hq, hp]
        rfl

/-- C8 witness: the invariant instantiated at the concrete witness backend and its returned record. -/
theorem c8_witness :
    ((1 : Rat) = 0 ∨ ∃ v tok q,
      (wBackend (cpuQuery (str ("5m")) (str ("worker-1")))).res = some v ∧
      valueToken v.render = some tok ∧ wParse tok = some q ∧ (1 : Rat) = q) ∧
    ((2 : Rat) = 0 ∨ ∃ v tok q,
      (wBackend (memQuery (str ("5m")) (str ("worker-1")))).res = some v ∧
      valueToken v.render = some tok ∧ wParse tok = some q ∧ (2 : Rat) = q) := by
  exact c8_fields_parsed_or_zero wParse (fun _ _ => .ok ()) wBackend ⟨[], []⟩
    (str ("worker-1")) (str ("5m")) ⟨1, 2⟩ (by decide)

/-- C9: on a non-nil vector result with a non-empty rendering, the parsing indices are in bounds iff the first newline-separated line contains "=>" (the split on spaces is always non-empty, so value index 0 is always in bounds); the rendering "abc" is a non-empty rendering whose first line lacks "=>" and makes the index access out of bounds. -/
theorem c9_panic_precondition :
    (∀ (parse : Str → Option Rat) (r : QueryReply) (v : PromValue),
      r.res = some v → v.type = .valVector → v.render ≠ [] →
      (processReply parse r = .panic ↔
        ¬ str ("=>") <:+: firstLine v.render))
    ∧ (∀ s : Str, goSplitChar ' ' s ≠ [])
    ∧ processReply (fun _ => none)
        ⟨some ⟨.valVector, str ("abc")⟩, [], none⟩ = .panic := by
  refine ⟨?_, goSplitChar_ne_nil ' ', by decide⟩
  intro parse r v hres ht hne
  rw [show str ("=>") = (['=', '>'] : Str) from rfl]
  exact processReply_panic_iff parse r v hres ht hne

/-- C9 witness: a rendering whose first line contains "=>" does not panic. -/
theorem c9_witness :
    processReply (fun _ => none)
      ⟨some ⟨.valVector, str ("x => 1")⟩, [], none⟩ ≠ .panic := by
  have h := c9_panic_precondition.1 (fun _ => none)
    ⟨some ⟨.valVector, str ("x => 1")⟩, [], none⟩
    ⟨.valVector, str ("x => 1")⟩ rfl rfl (by decide)
  rw [ne_eq, h, not_not]
  exact ⟨str ("x "), str (" 1"), by decide⟩

/-- C10: TLS certificate verification is skipped iff the option map's key tls.insecureSkipVerify maps to the exact string "true"; for every other value and when the key is absent, verification remains enabled. -/
theorem c10_tls_skip_iff_true :
    (∀ conf : List (Str × Str),
      insecureSkipVerify conf = true ↔
        conf.lookup (str ("tls.insecureSkipVerify")) = some (str ("true")))
    ∧ (∀ conf : List (Str × Str),
      conf.lookup (str ("tls.insecureSkipVerify")) = none →
        insecureSkipVerify conf = false) := by
  have base : ∀ conf : List (Str × Str),
      insecureSkipVerify conf = true ↔
        conf.lookup (str ("tls.insecureSkipVerify")) = some (str ("true")) := by
    intro conf
    unfold insecureSkipVerify goMapGet
    cases h : conf.lookup (str ("tls.insecureSkipVerify")) with
    | none =>
      simp only [h, Option.getD_none]
      constructor
      · intro hx
        exact absurd hx (by decide)
      · intro hx
        exact absurd hx (by simp)
    | some v =>
      simp only [h, Option.getD_some, beq_iff_eq, Option.some_inj]
  refine ⟨base, fun conf h => ?_⟩
  cases hx : insecureSkipVerify conf with
  | false => rfl
  | true =>
    rw [(base conf).mp hx] at h
    exact absurd h (by simp)

/-- C10 witness: value "true" skips verification; value "True" and an absent key do not. -/
theorem c10_witness :
    insecureSkipVerify [(str ("tls.insecureSkipVerify"), str ("true"))] = true ∧
    insecureSkipVerify [(str ("tls.insecureSkipVerify"), str ("True"))] = false ∧
    insecureSkipVerify [] = false := by
  refine ⟨(c10_tls_skip_iff_true.1 _).mpr (by decide), ?_, ?_⟩
  · cases hx : insecureSkipVerify [(str ("tls.insecureSkipVerify"), str ("True"))] with
    | false => rfl
    | true =>
      have := (c10_tls_skip_iff_true.1 _).mp hx
      exact absurd this (by decide)
  · exact c10_tls_skip_iff_true.2 [] rfl
